import Mathlib

/-
Verification of the jiravars metric exporter (main.go) against its
natural-language specification.

The Go program is shallowly embedded below.  Conventions used throughout:

* Go `map` values are modelled as association lists; Go map iteration order
  is unspecified, so every theorem stated over an association-list order is
  order-insensitive in the facts it asserts (lookups, membership, lengths)
  unless the source itself fixes an order.
* `time.Duration` (an int64 count of nanoseconds) is modelled as `Int`, and
  the unsigned accumulator inside `time.ParseDuration` as `Nat` with the
  explicit bound 2^63 where Go checks for overflow.
* The gauge counts that the program stores are `float64` in Go, but every
  value the program ever stores is a count obtained by repeatedly adding 1
  starting from 0; below 2^53 those float64 operations are exact, so counts
  are modelled as `Nat`.
* A write that panics in Go (`GaugeVec.WithLabelValues` with the wrong
  number of label values) is modelled as `Option.none`.
-/

namespace Jiravars

/- ------------------------------------------------------------------
   Jira API response types (main.go lines 24-39)
   ------------------------------------------------------------------ -/

structure Component where
  name : String
deriving DecidableEq

structure IssueFields where
  components : List Component
deriving DecidableEq

structure Issue where
  fields : IssueFields
deriving DecidableEq

structure JiraResponse where
  issues : List Issue
deriving DecidableEq

/- ------------------------------------------------------------------
   Configuration types (main.go lines 41-57)

   `metricConfiguration.Labels` is a Go `map[string]string`, modelled as an
   association list.  The `GaugeVec` pointer field is modelled separately
   (`GaugeVec` below) because the Lean embedding passes registry state
   explicitly.
   ------------------------------------------------------------------ -/

structure metricConfiguration where
  Name : String
  Help : String
  JQL : String
  Interval : String
  Labels : List (String × String)
  ParsedInterval : Int
deriving DecidableEq

def mDefault : metricConfiguration :=
  { Name := "", Help := "", JQL := "", Interval := "", Labels := [], ParsedInterval := 0 }

/- ------------------------------------------------------------------
   Generic association-list update/lookup helpers.

   `assocSet` replaces the value of an existing key or appends a new pair;
   this is the state change performed by a Go map assignment and by
   `Header.Set` / `GaugeVec.WithLabelValues(...).Set`.
   ------------------------------------------------------------------ -/

def assocSet {α β : Type} [DecidableEq α] : List (α × β) → α → β → List (α × β)
  | [], k, v => [(k, v)]
  | (k₀, v₀) :: rest, k, v =>
    if k₀ = k then (k₀, v) :: rest else (k₀, v₀) :: assocSet rest k v

def lookupA {α β : Type} [DecidableEq α] : List (α × β) → α → Option β
  | [], _ => none
  | (k₀, v₀) :: rest, k => if k₀ = k then some v₀ else lookupA rest k

/- ------------------------------------------------------------------
   The prometheus gauge family registered for one metric definition.

   `prometheus.GaugeVec` keyed by label-value tuples; `values` holds the
   children created so far (label values → current gauge value).
   ------------------------------------------------------------------ -/

structure GaugeVec where
  name : String
  help : String
  labelNames : List String
  values : List (List String × Nat)
deriving DecidableEq

/-- `setupGauges` body for one metric (main.go lines 168-179): the label
names of the family are the KEYS of the configured `Labels` map; the family
name is `"jira_" + Name`; no children exist yet. -/
def mkGaugeVec (m : metricConfiguration) : GaugeVec :=
  { name := "jira_" ++ m.Name
    help := m.Help
    labelNames := m.Labels.map Prod.fst
    values := [] }

/-- `g.WithLabelValues(lvs...).Set(v)`.  The prometheus client panics when
the number of supplied label values differs from the number of declared
label names; that panic is `none`. -/
def withLabelValuesSet (g : GaugeVec) (lvs : List String) (v : Nat) : Option GaugeVec :=
  if lvs.length = g.labelNames.length then
    some { g with values := assocSet g.values lvs v }
  else none

/- ------------------------------------------------------------------
   One poll cycle (the closure in `check`, main.go lines 106-152)
   ------------------------------------------------------------------ -/

/-- `componentCounts[name]++` (main.go line 144): bump a counter in the
counts map, inserting it at 1 when absent. -/
def bump : List (String × Nat) → String → List (String × Nat)
  | [], n => [(n, 1)]
  | (k, v) :: rest, n =>
    if k = n then (k, v + 1) :: rest else (k, v) :: bump rest n

/-- The component names of all issues, in response order (the nested loops
of main.go lines 142-146 visit exactly this sequence). -/
def componentNames (issues : List Issue) : List String :=
  issues.flatMap (fun i => i.fields.components.map Component.name)

/-- The counts map built by main.go lines 141-146: for each component name,
how many issues carry it (an issue listing a component twice counts twice,
exactly as the Go loop does). -/
def componentCounts (issues : List Issue) : List (String × Nat) :=
  (componentNames issues).foldl bump []

/-- The update loop of main.go lines 149-151: one
`WithLabelValues(comp).Set(count)` per entry of the counts map.  A panic
anywhere (label cardinality mismatch) aborts the task: `none`. -/
def updateMetrics (g : GaugeVec) : List (String × Nat) → Option GaugeVec
  | [] => some g
  | p :: rest =>
    match withLabelValuesSet g [p.1] p.2 with
    | none => none
    | some g₁ => updateMetrics g₁ rest

/-- The observable outcome of the HTTP exchange of one cycle:
`http.NewRequest` failed, `client.Do` failed, or a response arrived with a
status code and a body whose JSON decoding either failed or produced a
`JiraResponse`. -/
inductive CycleOutcome where
  | requestError : String → CycleOutcome
  | transportError : String → CycleOutcome
  | response : Nat → Except String JiraResponse → CycleOutcome

/-- One poll cycle (main.go lines 106-152) acting on the metric's gauge
family.  Each failure arm logs and returns early, leaving the gauge
untouched (`some g`); on success the counts map is written out.
`http.StatusOK = 200`. -/
def runCycle (o : CycleOutcome) (g : GaugeVec) : Option GaugeVec :=
  match o with
  | .requestError _ => some g
  | .transportError _ => some g
  | .response status body =>
    if status ≠ 200 then some g
    else
      match body with
      | .error _ => some g
      | .ok result => updateMetrics g (componentCounts result.issues)

/- ------------------------------------------------------------------
   Gauge registration (main.go lines 166-186)
   ------------------------------------------------------------------ -/

/-- `registry.Register` (prometheus): fails when a collector with the same
fully-qualified name is already registered, otherwise appends. -/
def registerGauge (reg : List GaugeVec) (g : GaugeVec) : List GaugeVec × Option String :=
  if g.name ∈ reg.map GaugeVec.name then
    (reg, some "duplicate metrics collector registration attempted")
  else (reg ++ [g], none)

/-- `setupGauges` (main.go lines 166-186): register one family per metric,
in order, returning on the first registration error.  The registry is
mutated in place in Go, so families registered before a failure remain
registered; the pair returned here is (final registry state, error). -/
def setupGauges : List GaugeVec → List metricConfiguration → List GaugeVec × Option String
  | reg, [] => (reg, none)
  | reg, m :: rest =>
    match registerGauge reg (mkGaugeVec m) with
    | (reg', none) => setupGauges reg' rest
    | (reg', some e) => (reg', some e)

/- ------------------------------------------------------------------
   Request headers (main.go lines 89-93 and 119-120)

   `http.Header` is a Go map keyed by canonical MIME header keys;
   `Header.Set` canonicalizes its key.  Headers are modelled as an
   association list from canonical key to the (single) value `Set` stores.
   ------------------------------------------------------------------ -/

/-- Go `validHeaderFieldByte`: ASCII letters, digits, and the RFC 7230
token characters.  (Code points 33,35,36,37,38,39,42,43,45,46,94,95,96,
124,126 spell the fifteen token punctuation characters.) -/
def isTokenChar (c : Char) : Bool :=
  (c.toNat ≥ 48 && c.toNat ≤ 57) || (c.toNat ≥ 97 && c.toNat ≤ 122) ||
  (c.toNat ≥ 65 && c.toNat ≤ 90) ||
  [33, 35, 36, 37, 38, 39, 42, 43, 45, 46, 94, 95, 96, 124, 126].contains c.toNat

/-- The in-place loop of `canonicalMIMEHeaderKey`: uppercase a letter at the
start and after each hyphen, lowercase every other letter. -/
def canonChars : Bool → List Char → List Char
  | _, [] => []
  | upper, c :: rest =>
    let c' :=
      if upper && c.toNat ≥ 97 && c.toNat ≤ 122 then Char.ofNat (c.toNat - 32)
      else if !upper && c.toNat ≥ 65 && c.toNat ≤ 90 then Char.ofNat (c.toNat + 32)
      else c
    c' :: canonChars (c' = '-') rest

/-- `textproto.CanonicalMIMEHeaderKey`: a key containing any non-token byte
is returned unchanged; otherwise it is canonicalized. -/
def canonicalMIMEHeaderKey (s : String) : String :=
  if s.data.all isTokenChar then String.mk (canonChars true s.data) else s

/-- `r.Header.Set(k, v)`. -/
def headerSet (h : List (String × String)) (k v : String) : List (String × String) :=
  assocSet h (canonicalMIMEHeaderKey k) v

/-- `addHeaders` (main.go lines 89-93): `Header.Set` for every configured
static header.  Go map iteration order is unspecified; the fold order is
the list order of the modelled map. -/
def addHeaders (r : List (String × String)) (headers : List (String × String)) :
    List (String × String) :=
  headers.foldl (fun r p => headerSet r p.1 p.2) r

/-- UTF-8 encoding of one character, as Go's `[]byte(s)` produces it. -/
def utf8Bytes (c : Char) : List Nat :=
  let n := c.toNat
  if n < 128 then [n]
  else if n < 2048 then [192 + n / 64, 128 + n % 64]
  else if n < 65536 then [224 + n / 4096, 128 + n / 64 % 64, 128 + n % 64]
  else [240 + n / 262144, 128 + n / 4096 % 64, 128 + n / 64 % 64, 128 + n % 64]

def base64Alphabet : List Char :=
  "ABCDEFGHIJKLMNOPQRSTUVWXYZabcdefghijklmnopqrstuvwxyz0123456789+/".data

def b64Char (n : Nat) : Char := base64Alphabet.getD n 'A'

/-- `base64.StdEncoding`: three bytes become four alphabet characters, with
`=` padding for a final group of one or two bytes. -/
def base64Chunks : List Nat → List Char
  | [] => []
  | [b₀] => [b64Char (b₀ / 4), b64Char (b₀ % 4 * 16), '=', '=']
  | [b₀, b₁] => [b64Char (b₀ / 4), b64Char (b₀ % 4 * 16 + b₁ / 16), b64Char (b₁ % 16 * 4), '=']
  | b₀ :: b₁ :: b₂ :: rest =>
    b64Char (b₀ / 4) :: b64Char (b₀ % 4 * 16 + b₁ / 16) ::
      b64Char (b₁ % 16 * 4 + b₂ / 64) :: b64Char (b₂ % 64) :: base64Chunks rest

def base64Encode (s : String) : String :=
  String.mk (base64Chunks (s.data.flatMap utf8Bytes))

/-- `r.SetBasicAuth(username, password)`: sets the `Authorization` header to
`"Basic " + base64(username + ":" + password)`. -/
def setBasicAuth (r : List (String × String)) (username password : String) :
    List (String × String) :=
  headerSet r "Authorization" ("Basic " ++ base64Encode (username ++ ":" ++ password))

/-- The header state of the request built in `check` (main.go lines
114-120): a fresh request, then `addHeaders`, then `SetBasicAuth`. -/
def requestHeaders (cfgHeaders : List (String × String)) (login password : String) :
    List (String × String) :=
  setBasicAuth (addHeaders [] cfgHeaders) login password

/- ------------------------------------------------------------------
   time.ParseDuration (Go standard library), used by loadConfiguration

   Faithful to Go's parser: optional sign, the literal "0", then one or
   more groups `[0-9]*(\.[0-9]*)?unit`, accumulated in an unsigned value
   with overflow checks against 2^63.  The one divergence: where Go adds
   the fractional part via float64 (`uint64(float64(f)*(float64(unit)/scale))`),
   the model uses the truncating integer quotient `f * unit / scale`; both
   agree on every fraction-free input, and no claim involves fractional
   intervals.  Error messages are consolidated; no claim inspects them.
   ------------------------------------------------------------------ -/

/-- Go `leadingInt`: consume leading digits into `x`, failing (overflow)
when `x` would pass 2^63. -/
def leadingInt : List Char → Nat → Option (Nat × List Char)
  | [], x => some (x, [])
  | c :: rest, x =>
    if c.isDigit then
      if x > 9223372036854775808 / 10 then none
      else
        let y := x * 10 + (c.toNat - 48)
        if y > 9223372036854775808 then none
        else leadingInt rest y
    else some (x, c :: rest)

/-- Go `leadingFraction`: consume leading digits into `x` with scale; on
overflow stop accumulating precision (but keep consuming digits). -/
def leadingFraction : List Char → Nat → Nat → Bool → Nat × Nat × List Char
  | [], x, scale, _ => (x, scale, [])
  | c :: rest, x, scale, overflow =>
    if c.isDigit then
      if overflow then leadingFraction rest x scale overflow
      else if x > 9223372036854775807 / 10 then leadingFraction rest x scale true
      else leadingFraction rest (x * 10 + (c.toNat - 48)) (scale * 10) false
    else (x, scale, c :: rest)

/-- Go's `unitMap`: nanoseconds per unit (both Unicode spellings of
microseconds included). -/
def unitValue : String → Option Nat
  | "ns" => some 1
  | "us" => some 1000
  | "µs" => some 1000
  | "μs" => some 1000
  | "ms" => some 1000000
  | "s" => some 1000000000
  | "m" => some 60000000000
  | "h" => some 3600000000000
  | _ => none

/-- A character that begins a unit suffix (neither `.` nor a digit). -/
def isUnitChar (c : Char) : Bool := !(c = '.' || c.isDigit)

/-- The main loop of `ParseDuration`, accumulating nanoseconds in `d`.
Every iteration consumes at least one character (the unit is non-empty),
so fuel `s.length + 1` never runs out; `none` is any parse error. -/
def parseDurationLoop : Nat → List Char → Nat → Option Nat
  | _, [], d => some d
  | 0, _ :: _, _ => none
  | fuel + 1, c :: cs, d =>
    let s := c :: cs
    if isUnitChar c then none
    else
      match leadingInt s 0 with
      | none => none
      | some (v, s₁) =>
        let pre := decide (s₁.length ≠ s.length)
        let (f, scale, s₂, post) :=
          match s₁ with
          | '.' :: rest =>
            let (f, scale, s₂) := leadingFraction rest 0 1 false
            (f, scale, s₂, decide (s₂.length ≠ rest.length))
          | _ => (0, 1, s₁, false)
        if !pre && !post then none
        else
          let u := s₂.takeWhile isUnitChar
          let s₃ := s₂.dropWhile isUnitChar
          if u = [] then none
          else
            match unitValue (String.mk u) with
            | none => none
            | some unit =>
              if v > 9223372036854775808 / unit then none
              else
                let v₁ := v * unit
                let v₂ := if f > 0 then v₁ + f * unit / scale else v₁
                if v₂ > 9223372036854775808 then none
                else
                  let d₁ := d + v₂
                  if d₁ > 9223372036854775808 then none
                  else parseDurationLoop fuel s₃ d₁

/-- Go `time.ParseDuration`, returning nanoseconds. -/
def parseDuration (s : String) : Except String Int :=
  let cs := s.data
  let signed :=
    match cs with
    | c :: rest =>
      if c = '-' then (true, rest) else if c = '+' then (false, rest) else (false, cs)
    | [] => (false, cs)
  let neg := signed.1
  let cs₁ := signed.2
  if cs₁ = ['0'] then Except.ok 0
  else if cs₁ = [] then Except.error ("time: invalid duration " ++ s)
  else
    match parseDurationLoop (cs₁.length + 1) cs₁ 0 with
    | none => Except.error ("time: invalid duration " ++ s)
    | some d =>
      if neg then Except.ok (-(d : Int))
      else if d > 9223372036854775807 then Except.error ("time: invalid duration " ++ s)
      else Except.ok (d : Int)

/- ------------------------------------------------------------------
   loadConfiguration's interval loop (main.go lines 76-86)

   Reading and YAML-decoding the file are external I/O; the modelled part
   is the loop that defaults and parses each metric's interval.
   ------------------------------------------------------------------ -/

/-- Lines 77-84 for one metric: an empty interval becomes "5m", then the
interval must parse, else loading fails. -/
def processMetric (m : metricConfiguration) : Except String metricConfiguration :=
  let interval := if m.Interval = "" then "5m" else m.Interval
  match parseDuration interval with
  | Except.error e => Except.error ("invalid interval for metric: " ++ e)
  | Except.ok d => Except.ok { m with Interval := interval, ParsedInterval := d }

/-- The loop over `cfg.Metrics` (main.go lines 76-85): first failure aborts
loading with an error. -/
def processMetrics : List metricConfiguration → Except String (List metricConfiguration)
  | [] => Except.ok []
  | m :: rest =>
    match processMetric m with
    | Except.error e => Except.error e
    | Except.ok m₁ =>
      match processMetrics rest with
      | Except.error e => Except.error e
      | Except.ok rest₁ => Except.ok (m₁ :: rest₁)

/- ------------------------------------------------------------------
   The per-metric task loop (main.go lines 104-159)

   Each iteration runs the poll-cycle closure FIRST, then waits in
   `select` for either the ticker or context cancellation.  The schedule
   of signals the `select` observes is the input; the trace records, in
   order, each cycle execution, each tick wait that elapsed, and the
   observation of cancellation that breaks the loop.  An empty schedule
   means the task is still blocked in its first `select`.
   ------------------------------------------------------------------ -/

inductive Signal where
  | tick : Signal
  | cancel : Signal
deriving DecidableEq

inductive LoopEvent where
  | cycle : LoopEvent
  | waitTick : LoopEvent
  | observeCancel : LoopEvent
deriving DecidableEq

def pollTrace : List Signal → List LoopEvent
  | [] => [LoopEvent.cycle]
  | Signal.cancel :: _ => [LoopEvent.cycle, LoopEvent.observeCancel]
  | Signal.tick :: rest => LoopEvent.cycle :: LoopEvent.waitTick :: pollTrace rest

/- ------------------------------------------------------------------
   Concrete instances used by witnesses and counterexamples
   ------------------------------------------------------------------ -/

def issueA : Issue := ⟨⟨[⟨"A"⟩]⟩⟩

def issueB : Issue := ⟨⟨[⟨"B"⟩]⟩⟩

/-- The metric of `TestCheck`/`working-metric` in main_test.go (no labels
configured). -/
def mTest : metricConfiguration :=
  { mDefault with Name := "test", Help := "test", JQL := "project = TEST" }

def gTest : GaugeVec := mkGaugeVec mTest

/-- A definition with exactly one static label, so that single-label-value
writes succeed. -/
def mComp : metricConfiguration :=
  { mDefault with Name := "by_component", Help := "issues by component",
                  Labels := [("component", "placeholder")] }

def gComp : GaugeVec := mkGaugeVec mComp

def outcomeAAB : CycleOutcome :=
  CycleOutcome.response 200 (Except.ok ⟨[issueA, issueA, issueB]⟩)

def outcomeA : CycleOutcome := CycleOutcome.response 200 (Except.ok ⟨[issueA]⟩)

/-- Gauge state after a cycle observing sub-values A, A, B and then a cycle
observing only A. -/
def afterTwoCycles : Option GaugeVec :=
  (runCycle outcomeAAB gComp).bind (fun g => runCycle outcomeA g)

/-- `gComp` after one successful cycle observing one issue with component A. -/
def gAfterA : GaugeVec := { gComp with values := [(["A"], 1)] }

/-- A definition with static label env=prod. -/
def mEnv : metricConfiguration :=
  { mDefault with Name := "deploys", Help := "deploy count", Labels := [("env", "prod")] }

/-- Same definition with a different static label value. -/
def mEnvDev : metricConfiguration :=
  { mDefault with Name := "deploys", Help := "deploy count", Labels := [("env", "dev")] }

def mDup : metricConfiguration := { mDefault with Name := "dup", Help := "dup help" }

def mW1 : metricConfiguration := { mDefault with Name := "alpha", Help := "help a" }

def mW2 : metricConfiguration := { mDefault with Name := "beta", Help := "help b" }

def hdrsW : List (String × String) := [("X-Custom-Header", "custom-value")]

/-- A metric whose configuration omits the interval. -/
def mwEmpty : metricConfiguration := { mDefault with Name := "e", Help := "h" }

def mwEmptyOut : metricConfiguration :=
  { mwEmpty with Interval := "5m", ParsedInterval := 300000000000 }

/-- A metric whose configured interval does not parse as a duration. -/
def mwBad : metricConfiguration := { mDefault with Name := "b", Help := "h", Interval := "abc" }

end Jiravars

/- ==================================================================
   Theorems
   ================================================================== -/

namespace Jiravars

/- Association-list helper lemmas. -/

theorem lookupA_assocSet_self {α β : Type} [DecidableEq α] (l : List (α × β)) (k : α) (v : β) :
    lookupA (assocSet l k v) k = some v := by
  induction l with
  | nil => simp [assocSet, lookupA]
  | cons p rest ih =>
    obtain ⟨k₀, v₀⟩ := p
    by_cases h : k₀ = k <;> simp [assocSet, lookupA, h, ih]

theorem lookupA_assocSet_ne {α β : Type} [DecidableEq α] (l : List (α × β)) (k k' : α) (v : β)
    (h : k' ≠ k) : lookupA (assocSet l k v) k' = lookupA l k' := by
  induction l with
  | nil =>
    simp only [assocSet, lookupA]
    rw [if_neg (fun he : k = k' => h he.symm)]
  | cons p rest ih =>
    obtain ⟨k₀, v₀⟩ := p
    by_cases h₀ : k₀ = k
    · subst h₀
      simp only [assocSet, if_pos rfl, lookupA,
        if_neg (fun he : k₀ = k' => h he.symm)]
    · simp only [assocSet, if_neg h₀, lookupA]
      by_cases h₁ : k₀ = k' <;> simp [h₁, ih]

/- The `withLabelValuesSet`/`updateMetrics` write discipline. -/

theorem withLabelValuesSet_values (g g₁ : GaugeVec) (lvs : List String) (v : Nat)
    (h : withLabelValuesSet g lvs v = some g₁) :
    g₁.values = assocSet g.values lvs v := by
  unfold withLabelValuesSet at h
  split at h
  · cases h; rfl
  · cases h

theorem updateMetrics_lookup_notmem (lvs : List String) (counts : List (String × Nat)) :
    ∀ g g' : GaugeVec, updateMetrics g counts = some g' →
      (∀ p ∈ counts, ([p.1] : List String) ≠ lvs) →
      lookupA g'.values lvs = lookupA g.values lvs := by
  induction counts with
  | nil =>
    intro g g' h _
    simp only [updateMetrics] at h
    cases h
    rfl
  | cons p rest ih =>
    intro g g' h hne
    simp only [updateMetrics] at h
    cases hw : withLabelValuesSet g [p.1] p.2 with
    | none => rw [hw] at h; cases h
    | some g₁ =>
      rw [hw] at h
      have hrest := ih g₁ g' h (fun q hq => hne q (List.mem_cons_of_mem _ hq))
      rw [hrest, withLabelValuesSet_values g g₁ _ _ hw,
        lookupA_assocSet_ne _ _ _ _ (hne p (List.mem_cons_self _ _)).symm]

theorem updateMetrics_lookup_mem (counts : List (String × Nat)) :
    (counts.map Prod.fst).Nodup →
    ∀ g g' : GaugeVec, updateMetrics g counts = some g' →
      ∀ p ∈ counts, lookupA g'.values [p.1] = some p.2 := by
  induction counts with
  | nil => intro _ g g' _ p hp; cases hp
  | cons q rest ih =>
    intro hnd g g' h p hp
    simp only [List.map_cons, List.nodup_cons] at hnd
    simp only [updateMetrics] at h
    cases hw : withLabelValuesSet g [q.1] q.2 with
    | none => rw [hw] at h; cases h
    | some g₁ =>
      rw [hw] at h
      rcases List.mem_cons.mp hp with heq | hp'
      · rw [heq]
        have hrest : ∀ r ∈ rest, ([r.1] : List String) ≠ [q.1] := by
          intro r hr hcontra
          have hr1 : r.1 = q.1 := by simpa using hcontra
          exact hnd.1 (hr1 ▸ List.mem_map_of_mem Prod.fst hr)
        rw [updateMetrics_lookup_notmem _ _ g₁ g' h hrest,
          withLabelValuesSet_values g g₁ _ _ hw, lookupA_assocSet_self]
      · exact ih hnd.2 g₁ g' h p hp'

/- Properties of the counts map built by `bump`. -/

theorem bump_ne_nil (l : List (String × Nat)) (n : String) : bump l n ≠ [] := by
  cases l with
  | nil => simp [bump]
  | cons p rest =>
    obtain ⟨k, v⟩ := p
    by_cases h : k = n <;> simp [bump, h]

theorem foldl_bump_ne_nil (names : List String) :
    ∀ acc : List (String × Nat), acc ≠ [] → names.foldl bump acc ≠ [] := by
  induction names with
  | nil => intro acc h; simpa using h
  | cons n rest ih => intro acc _; exact ih (bump acc n) (bump_ne_nil acc n)

theorem componentNames_ne_nil (issues : List Issue)
    (h : ∃ i ∈ issues, i.fields.components ≠ []) : componentNames issues ≠ [] := by
  obtain ⟨i, hi, hc⟩ := h
  obtain ⟨c, hc'⟩ := List.exists_mem_of_ne_nil _ hc
  exact List.ne_nil_of_mem (by
    simp only [componentNames, List.mem_flatMap]
    exact ⟨i, hi, List.mem_map_of_mem Component.name hc'⟩)

theorem componentCounts_ne_nil (issues : List Issue)
    (h : componentNames issues ≠ []) : componentCounts issues ≠ [] := by
  unfold componentCounts
  cases hn : componentNames issues with
  | nil => exact absurd hn h
  | cons n rest =>
    simp only [List.foldl_cons]
    exact foldl_bump_ne_nil rest (bump [] n) (bump_ne_nil [] n)

theorem mem_keys_bump (l : List (String × Nat)) (n a : String) :
    a ∈ (bump l n).map Prod.fst ↔ a ∈ l.map Prod.fst ∨ a = n := by
  induction l with
  | nil => simp [bump]
  | cons p rest ih =>
    obtain ⟨k, v⟩ := p
    by_cases h : k = n
    · subst h
      simp [bump]
      tauto
    · simp [bump, h, ih]
      tauto

theorem nodup_keys_bump (l : List (String × Nat)) (n : String)
    (h : (l.map Prod.fst).Nodup) : ((bump l n).map Prod.fst).Nodup := by
  induction l with
  | nil => simp [bump]
  | cons p rest ih =>
    obtain ⟨k, v⟩ := p
    simp only [List.map_cons, List.nodup_cons] at h
    by_cases hk : k = n
    · subst hk
      simpa [bump] using h
    · simp only [bump, hk, if_false, List.map_cons, List.nodup_cons]
      exact ⟨fun hmem => by
        rcases (mem_keys_bump rest n k).mp hmem with h' | h'
        · exact h.1 h'
        · exact hk h', ih h.2⟩

theorem nodup_keys_foldl_bump (names : List String) :
    ∀ acc : List (String × Nat), (acc.map Prod.fst).Nodup →
      ((names.foldl bump acc).map Prod.fst).Nodup := by
  induction names with
  | nil => intro acc h; simpa using h
  | cons n rest ih => intro acc h; exact ih (bump acc n) (nodup_keys_bump acc n h)

theorem componentCounts_keys_nodup (issues : List Issue) :
    ((componentCounts issues).map Prod.fst).Nodup :=
  nodup_keys_foldl_bump (componentNames issues) [] (by simp)

/- Registration helper. -/

theorem setupGauges_append (ms : List metricConfiguration) :
    ∀ reg : List GaugeVec,
      (∀ m ∈ ms, ("jira_" ++ m.Name) ∉ reg.map GaugeVec.name) →
      (ms.map (fun m => "jira_" ++ m.Name)).Nodup →
      setupGauges reg ms = (reg ++ ms.map mkGaugeVec, none) := by
  induction ms with
  | nil => intro reg _ _; simp [setupGauges]
  | cons m rest ih =>
    intro reg hfresh hnd
    simp only [List.map_cons, List.nodup_cons] at hnd
    have hnot : (mkGaugeVec m).name ∉ reg.map GaugeVec.name :=
      hfresh m (List.mem_cons_self _ _)
    simp only [setupGauges, registerGauge, if_neg hnot]
    rw [ih (reg ++ [mkGaugeVec m]) ?_ hnd.2]
    · simp
    · intro m' hm' hmem
      rw [List.map_append] at hmem
      rcases List.mem_append.mp hmem with h' | h'
      · exact hfresh m' (List.mem_cons_of_mem _ hm') h'
      · have h'' : ("jira_" ++ m'.Name) = "jira_" ++ m.Name := by
          simpa [mkGaugeVec] using h'
        exact hnd.1 (h'' ▸ List.mem_map_of_mem (fun m => "jira_" ++ m.Name) hm')

/- ------------------------------------------------------------------
   Claims
   ------------------------------------------------------------------ -/

/-- Claim C1.  The claim (and TestCheck in main_test.go, which feeds the
body with total 5 and expects the gauge to read 5) says a successful
poll whose items carry no categorical sub-values yields a single unlabeled
entry equal to the total item count.  The code disagrees: a successful
cycle whose issues carry no components builds an empty counts map and
writes nothing — the family keeps no values at all.  (The shipped test
does not even compile against main.go: it reads the removed field
`Gauge`.)  This theorem evaluates the cycle at the test's own input, a
200 response whose body decodes to zero issues, and at a response of two
issues without components. -/
theorem C1_no_unlabeled_total_entry :
    runCycle (CycleOutcome.response 200 (Except.ok ⟨[]⟩)) gTest = some gTest
    ∧ runCycle (CycleOutcome.response 200 (Except.ok ⟨[⟨⟨[]⟩⟩, ⟨⟨[]⟩⟩]⟩)) gTest = some gTest
    ∧ gTest.values = [] := by decide

/-- Claim C2, counterexample.  After a cycle observing sub-values
A, A, B and then a cycle observing only A, the family still holds B at
its old count 1: the write does not fully replace the label-value set. -/
theorem C2_counterexample_stale_B_retained :
    (afterTwoCycles.map fun g => lookupA g.values ["B"]) = some (some 1)
    ∧ (afterTwoCycles.map fun g => lookupA g.values ["A"]) = some (some 1)
    ∧ afterTwoCycles.map GaugeVec.values ≠ some [(["A"], 1)] := by decide

/-- Claim C2 as amended.  A successful poll cycle sets each label value
present in the new Observation Set to its new count and leaves every
other previously-set label value unchanged; stale label values linger at
their last counts rather than being removed. -/
theorem C2_write_merges_not_replaces (g g' : GaugeVec) (issues : List Issue)
    (h : runCycle (CycleOutcome.response 200 (Except.ok ⟨issues⟩)) g = some g') :
    (∀ lvs : List String,
        (∀ p ∈ componentCounts issues, ([p.1] : List String) ≠ lvs) →
        lookupA g'.values lvs = lookupA g.values lvs)
    ∧ ∀ p ∈ componentCounts issues, lookupA g'.values [p.1] = some p.2 := by
  have h' : updateMetrics g (componentCounts issues) = some g' := by
    simpa [runCycle] using h
  exact ⟨fun lvs hlvs => updateMetrics_lookup_notmem lvs _ g g' h' hlvs,
    fun p hp => updateMetrics_lookup_mem _ (componentCounts_keys_nodup issues) g g' h' p hp⟩

theorem C2_amended_witness :
    lookupA gAfterA.values ["Z"] = lookupA gComp.values ["Z"]
    ∧ lookupA gAfterA.values ["A"] = some 1 := by
  have h := C2_write_merges_not_replaces gComp gAfterA [issueA] (by decide)
  exact ⟨h.1 ["Z"] (by decide), h.2 ("A", 1) (by decide)⟩

/-- Claim C3, counterexample.  A definition configured with the static
label pair env=prod, polled successfully with one issue carrying
component A, ends up with the single child whose label-value tuple is
["A"]: the configured static value "prod" is attached to no observation. -/
theorem C3_counterexample_static_value_dropped :
    ((runCycle (CycleOutcome.response 200 (Except.ok ⟨[issueA]⟩)) (mkGaugeVec mEnv)).map
        GaugeVec.values) = some [(["A"], 1)]
    ∧ "prod" ∉ (["A"] : List String) := by decide

/-- Claim C3 as amended.  Only the KEYS of the configured static label set
reach the gauge family (as its label names); the configured static values
are discarded entirely — two definitions differing only in their static
label values produce identical families (each observation instead carries
the dynamic component name as its label value). -/
theorem C3_labels_contribute_only_keys (m : metricConfiguration) :
    (mkGaugeVec m).labelNames = m.Labels.map Prod.fst
    ∧ ∀ m' : metricConfiguration, m'.Name = m.Name → m'.Help = m.Help →
        m'.Labels.map Prod.fst = m.Labels.map Prod.fst → mkGaugeVec m' = mkGaugeVec m := by
  refine ⟨rfl, fun m' h1 h2 h3 => ?_⟩
  simp [mkGaugeVec, h1, h2, h3]

theorem C3_amended_witness :
    (mkGaugeVec mEnv).labelNames = ["env"] ∧ mkGaugeVec mEnvDev = mkGaugeVec mEnv := by
  have h := C3_labels_contribute_only_keys mEnv
  exact ⟨h.1, h.2 mEnvDev rfl rfl rfl⟩

/-- Claim C4.  Every failing cycle — request construction failure,
transport failure, non-OK status, or decode failure — returns early
without writing: the gauge family is returned unchanged (`some g`, the
task neither panics nor touches the registry). -/
theorem C4_failed_cycle_preserves_state (o : CycleOutcome) (g : GaugeVec)
    (h : (∃ e, o = CycleOutcome.requestError e)
       ∨ (∃ e, o = CycleOutcome.transportError e)
       ∨ (∃ s b, o = CycleOutcome.response s b ∧ s ≠ 200)
       ∨ (∃ e, o = CycleOutcome.response 200 (Except.error e))) :
    runCycle o g = some g := by
  rcases h with ⟨e, rfl⟩ | ⟨e, rfl⟩ | ⟨s, b, rfl, hs⟩ | ⟨e, rfl⟩
  · rfl
  · rfl
  · simp [runCycle, hs]
  · rfl

theorem C4_witness :
    runCycle (CycleOutcome.response 503 (Except.error "service unavailable")) gTest
      = some gTest :=
  C4_failed_cycle_preserves_state _ gTest
    (Or.inr (Or.inr (Or.inl ⟨503, Except.error "service unavailable", rfl, by decide⟩)))

/-- Claim C5.  When the configured static label set does not have exactly
one key, the family is declared with `m.Labels.length ≠ 1` label names,
yet each write supplies exactly one label value (the component name), so
the first write of any successful cycle that observed at least one
component panics (`none`) instead of recording the observation. -/
theorem C5_label_cardinality_mismatch_panics (m : metricConfiguration) (g : GaugeVec)
    (issues : List Issue) (hg : g.labelNames = m.Labels.map Prod.fst)
    (hlab : m.Labels.length ≠ 1)
    (hcomp : ∃ i ∈ issues, i.fields.components ≠ []) :
    runCycle (CycleOutcome.response 200 (Except.ok ⟨issues⟩)) g = none := by
  have hne := componentCounts_ne_nil issues (componentNames_ne_nil issues hcomp)
  obtain ⟨p, rest, hcounts⟩ := List.exists_cons_of_ne_nil hne
  have hlen : ¬ (1 = g.labelNames.length) := by
    rw [hg, List.length_map]
    omega
  simp [runCycle, hcounts, updateMetrics, withLabelValuesSet, hlen]

theorem C5_witness :
    runCycle (CycleOutcome.response 200 (Except.ok ⟨[issueA]⟩)) gTest = none :=
  C5_label_cardinality_mismatch_panics mTest gTest [issueA] rfl (by decide)
    ⟨issueA, by simp, by decide⟩

/-- Claim C6, counterexample.  Registering the same definition twice does
return an error, but the registry is NOT left empty: the family
registered before the duplicate was hit remains registered. -/
theorem C6_counterexample_partial_registration :
    (setupGauges [] [mDup, mDup]).2.isSome = true
    ∧ (setupGauges [] [mDup, mDup]).1 = [mkGaugeVec mDup]
    ∧ (setupGauges [] [mDup, mDup]).1 ≠ [] := by decide

/-- Claim C6 as amended.  Two definitions mapping to the same published
metric name make setup return an error, but registration is not rolled
back: the first definition's family stays in the registry. -/
theorem C6_duplicate_name_errors_without_rollback (m₁ m₂ : metricConfiguration)
    (h : m₁.Name = m₂.Name) :
    setupGauges [] [m₁, m₂] =
      ([mkGaugeVec m₁], some "duplicate metrics collector registration attempted") := by
  simp [setupGauges, registerGauge, mkGaugeVec, h]

theorem C6_amended_witness :
    setupGauges [] [mDup, mDup] =
      ([mkGaugeVec mDup], some "duplicate metrics collector registration attempted") :=
  C6_duplicate_name_errors_without_rollback mDup mDup rfl

/-- Claim C7.  For a definition list whose published names ("jira_" + Name)
are pairwise distinct, setup on an empty registry succeeds (no error) and
the registry then holds exactly one family per definition, in order; the
family of a definition named X is named "jira_" + X and carries the
definition's help text. -/
theorem C7_setup_exposes_one_family_per_definition (ms : List metricConfiguration)
    (h : (ms.map (fun m => "jira_" ++ m.Name)).Nodup) :
    setupGauges [] ms = (ms.map mkGaugeVec, none)
    ∧ (setupGauges [] ms).1.length = ms.length
    ∧ ∀ m ∈ ms, mkGaugeVec m ∈ (setupGauges [] ms).1
        ∧ (mkGaugeVec m).name = "jira_" ++ m.Name ∧ (mkGaugeVec m).help = m.Help := by
  have hmain : setupGauges [] ms = (ms.map mkGaugeVec, none) := by
    simpa using setupGauges_append ms [] (by simp) h
  refine ⟨hmain, by rw [hmain]; simp, fun m hm => ⟨?_, rfl, rfl⟩⟩
  rw [hmain]
  exact List.mem_map_of_mem mkGaugeVec hm

theorem C7_witness :
    setupGauges [] [mW1, mW2] = ([mkGaugeVec mW1, mkGaugeVec mW2], none)
    ∧ (setupGauges [] [mW1, mW2]).1.length = 2 := by
  have h := C7_setup_exposes_one_family_per_definition [mW1, mW2] (by decide)
  exact ⟨h.1, h.2.1⟩

/- Header lemmas for claim C8. -/

theorem canon_authorization : canonicalMIMEHeaderKey "Authorization" = "Authorization" := by
  decide

theorem addHeaders_lookup_untouched (hs : List (String × String)) :
    ∀ (r : List (String × String)) (k : String),
      (∀ q ∈ hs, canonicalMIMEHeaderKey q.1 ≠ k) →
      lookupA (addHeaders r hs) k = lookupA r k := by
  induction hs with
  | nil => intro r k _; rfl
  | cons q rest ih =>
    intro r k hk
    show lookupA (addHeaders (headerSet r q.1 q.2) rest) k = lookupA r k
    rw [ih (headerSet r q.1 q.2) k (fun q' hq' => hk q' (List.mem_cons_of_mem _ hq'))]
    exact lookupA_assocSet_ne _ _ _ _ (hk q (List.mem_cons_self _ _)).symm

theorem addHeaders_lookup_mem (hs : List (String × String)) :
    ∀ r : List (String × String),
      (hs.map (fun p => canonicalMIMEHeaderKey p.1)).Nodup →
      ∀ p ∈ hs, lookupA (addHeaders r hs) (canonicalMIMEHeaderKey p.1) = some p.2 := by
  induction hs with
  | nil => intro r _ p hp; cases hp
  | cons q rest ih =>
    intro r hnd p hp
    simp only [List.map_cons, List.nodup_cons] at hnd
    rcases List.mem_cons.mp hp with heq | hp'
    · rw [heq]
      show lookupA (addHeaders (headerSet r q.1 q.2) rest) (canonicalMIMEHeaderKey q.1)
        = some q.2
      rw [addHeaders_lookup_untouched rest (headerSet r q.1 q.2)
        (canonicalMIMEHeaderKey q.1)
        (fun q' hq' hcontra => hnd.1 (hcontra ▸ List.mem_map_of_mem _ hq'))]
      exact lookupA_assocSet_self _ _ _
    · exact ih (headerSet r q.1 q.2) hnd.2 p hp'

/-- Claim C8.  The request built by `check` carries every configured
static header (looked up under its canonical key), and `SetBasicAuth`
runs after `addHeaders`, so the Authorization header always holds the
basic-auth value derived from the credentials — a static header of the
same purpose cannot override it. -/
theorem C8_headers_then_basic_auth (hs : List (String × String)) (login password : String)
    (hnd : (hs.map (fun p => canonicalMIMEHeaderKey p.1)).Nodup) :
    lookupA (requestHeaders hs login password) "Authorization"
      = some ("Basic " ++ base64Encode (login ++ ":" ++ password))
    ∧ ∀ p ∈ hs, canonicalMIMEHeaderKey p.1 ≠ "Authorization" →
        lookupA (requestHeaders hs login password) (canonicalMIMEHeaderKey p.1) = some p.2 := by
  constructor
  · show lookupA (assocSet (addHeaders [] hs) (canonicalMIMEHeaderKey "Authorization") _)
      "Authorization" = _
    rw [canon_authorization]
    exact lookupA_assocSet_self _ _ _
  · intro p hp hne
    show lookupA (assocSet (addHeaders [] hs) (canonicalMIMEHeaderKey "Authorization") _)
      (canonicalMIMEHeaderKey p.1) = some p.2
    rw [canon_authorization, lookupA_assocSet_ne _ _ _ _ hne]
    exact addHeaders_lookup_mem hs [] hnd p hp

theorem C8_witness :
    lookupA (requestHeaders hdrsW "login" "password") "Authorization"
      = some ("Basic " ++ base64Encode ("login" ++ ":" ++ "password"))
    ∧ lookupA (requestHeaders hdrsW "login" "password")
        (canonicalMIMEHeaderKey "X-Custom-Header") = some "custom-value" := by
  have h := C8_headers_then_basic_auth hdrsW "login" "password" (by decide)
  exact ⟨h.1, h.2 ("X-Custom-Header", "custom-value") (by decide) (by decide)⟩

/- Interval-processing lemmas for claim C9. -/

theorem parseDuration_five_minutes : parseDuration "5m" = Except.ok 300000000000 := by rfl

theorem processMetrics_getD (ms : List metricConfiguration) :
    ∀ ms₁, processMetrics ms = Except.ok ms₁ →
      ∀ i, i < ms.length →
        processMetric (ms.getD i mDefault) = Except.ok (ms₁.getD i mDefault) := by
  induction ms with
  | nil => intro ms₁ _ i hi; cases hi
  | cons m rest ih =>
    intro ms₁ h i hi
    simp only [processMetrics] at h
    cases hm : processMetric m with
    | error e => rw [hm] at h; cases h
    | ok m₁ =>
      rw [hm] at h
      cases hr : processMetrics rest with
      | error e => rw [hr] at h; cases h
      | ok rest₁ =>
        rw [hr] at h
        cases h
        cases i with
        | zero => simpa using hm
        | succ i' => simpa using ih rest₁ hr i' (Nat.lt_of_succ_lt_succ hi)

theorem processMetric_error_of_bad_interval (m : metricConfiguration)
    (hne : m.Interval ≠ "") (hbad : ∀ d, parseDuration m.Interval ≠ Except.ok d) :
    ∃ e, processMetric m = Except.error e := by
  cases hpd : parseDuration m.Interval with
  | ok d => exact absurd hpd (hbad d)
  | error e =>
    refine ⟨"invalid interval for metric: " ++ e, ?_⟩
    simp only [processMetric, if_neg hne, hpd]

theorem processMetrics_error_of_mem (ms : List metricConfiguration) :
    ∀ m ∈ ms, (∃ e, processMetric m = Except.error e) →
      ∃ e, processMetrics ms = Except.error e := by
  induction ms with
  | nil => intro m hm _; cases hm
  | cons m₀ rest ih =>
    intro m hm ⟨e, he⟩
    rcases List.mem_cons.mp hm with heq | hm'
    · refine ⟨e, ?_⟩
      simp only [processMetrics, ← heq, he]
    · cases hm₀ : processMetric m₀ with
      | error e₀ => exact ⟨e₀, by simp only [processMetrics, hm₀]⟩
      | ok m₁ =>
        obtain ⟨e', he'⟩ := ih m hm' ⟨e, he⟩
        exact ⟨e', by simp only [processMetrics, hm₀, he']⟩

/-- Claim C9.  Loading the configuration defaults an omitted polling
interval to "5m" = 5 minutes (300000000000 ns), and fails with an error
when a configured interval string does not parse as a duration. -/
theorem C9_interval_default_and_parse_failure (ms : List metricConfiguration) :
    (∀ ms₁, processMetrics ms = Except.ok ms₁ →
       ∀ i, i < ms.length → (ms.getD i mDefault).Interval = "" →
         (ms₁.getD i mDefault).ParsedInterval = 300000000000)
    ∧ ∀ m ∈ ms, m.Interval ≠ "" →
        (∀ d, parseDuration m.Interval ≠ Except.ok d) →
        ∃ e, processMetrics ms = Except.error e := by
  constructor
  · intro ms₁ hok i hi hempty
    have hg := processMetrics_getD ms ms₁ hok i hi
    simp only [processMetric, if_pos hempty, parseDuration_five_minutes,
      Except.ok.injEq] at hg
    rw [← hg]
  · intro m hm hne hbad
    exact processMetrics_error_of_mem ms m hm
      (processMetric_error_of_bad_interval m hne hbad)

theorem C9_witness :
    ([mwEmptyOut].getD 0 mDefault).ParsedInterval = 300000000000
    ∧ ∃ e, processMetrics [mwBad] = Except.error e := by
  refine ⟨(C9_interval_default_and_parse_failure [mwEmpty]).1 [mwEmptyOut] (by rfl) 0
      (by decide) rfl,
    (C9_interval_default_and_parse_failure [mwBad]).2 mwBad (by simp) (by decide) ?_⟩
  intro d hd
  have h : parseDuration mwBad.Interval = Except.error "time: invalid duration abc" := by
    rfl
  rw [h] at hd
  exact Except.noConfusion hd

/-- Claim C10.  The task loop of `check` runs the poll-cycle closure at
the top of every iteration and only then waits in `select`: the first
event of every trace is a cycle executed before any wait, and the total
number of cycles is one more than the number of ticks delivered before
cancellation is observed — each later cycle begins only after a tick, and
none begins after cancellation. -/
theorem C10_first_cycle_immediate (sigs : List Signal) :
    (pollTrace sigs).head? = some LoopEvent.cycle
    ∧ ((pollTrace sigs).filter (fun e => decide (e = LoopEvent.cycle))).length
        = (sigs.takeWhile (fun s => decide (s = Signal.tick))).length + 1 := by
  induction sigs with
  | nil => exact ⟨rfl, rfl⟩
  | cons s rest ih =>
    cases s with
    | cancel => exact ⟨rfl, rfl⟩
    | tick =>
      refine ⟨rfl, ?_⟩
      simp only [pollTrace, List.filter, List.takeWhile]
      simpa using ih.2


end Jiravars
